import Mathlib

/-!
Verification of the webradio9 recording-lifecycle core.

The development shallowly embeds the scheduler service
(`services/scheduler/service.py`) and the capture worker
(`services/recording/service.py`).  Python `datetime` values are modelled
by a Gregorian calendar date plus a second-of-day; `timedelta(days=1)`
is the calendar successor day, `relativedelta(months=1)` advances the
month and clips the day to the target month's length, and comparisons
between datetimes are comparisons of the corresponding instants
(`toSecs`).  Database rows are Lean structures, the job store is a list
of rows, and the side-effecting operations are state-passing functions
that also emit a trace of externally visible actions (persists and
publishes) so that ordering properties can be stated.
-/

namespace WebRadio

/-! ### Calendar model (Python `datetime.date`) -/

/-- A Gregorian calendar date, as carried by a Python `datetime`. -/
structure Date where
  year : Nat
  month : Nat
  day : Nat
deriving DecidableEq, Repr

/-- Gregorian leap-year rule, as implemented by Python's `calendar`/`datetime`. -/
def isLeap (y : Nat) : Bool :=
  (y % 4 == 0 && y % 100 != 0) || y % 400 == 0

/-- Number of days of month `m` in year `y`. -/
def daysInMonth (y m : Nat) : Nat :=
  if m = 2 then (if isLeap y then 29 else 28)
  else if m = 4 ∨ m = 6 ∨ m = 9 ∨ m = 11 then 30
  else 31

/-- A date is valid when its fields denote a real proleptic-Gregorian date
(year at least 1, as in Python `datetime`). -/
def Date.Valid (d : Date) : Prop :=
  1 ≤ d.year ∧ 1 ≤ d.month ∧ d.month ≤ 12 ∧ 1 ≤ d.day ∧ d.day ≤ daysInMonth d.year d.month

instance (d : Date) : Decidable d.Valid := by
  unfold Date.Valid; infer_instance

/-- The calendar successor day: the semantics of Python
`datetime + timedelta(days=1)` on the date component. -/
def succDay (d : Date) : Date :=
  if d.day < daysInMonth d.year d.month then ⟨d.year, d.month, d.day + 1⟩
  else if d.month < 12 then ⟨d.year, d.month + 1, 1⟩
  else ⟨d.year + 1, 1, 1⟩

/-- Number of leap years in `1..n`. -/
def leaps (n : Nat) : Nat := n / 4 + n / 400 - n / 100

/-- Days from 0001-01-01 to the first day of year `y`. -/
def daysBeforeYear (y : Nat) : Nat := 365 * (y - 1) + leaps (y - 1)

/-- Days from the first day of year `y` to the first day of month `m` of year `y`. -/
def daysBeforeMonth (y : Nat) : Nat → Nat
  | 0 => 0
  | 1 => 0
  | m + 2 => daysBeforeMonth y (m + 1) + daysInMonth y (m + 1)

/-- Day number of a date: days since 0001-01-01 (Python `toordinal() - 1`). -/
def toDays (d : Date) : Nat :=
  daysBeforeYear d.year + daysBeforeMonth d.year d.month + (d.day - 1)

/-- Day of week with Monday = 0, as Python `date.weekday()`;
0001-01-01 is a Monday. -/
def dayOfWeek (d : Date) : Nat := toDays d % 7

/-- The semantics of `dateutil.relativedelta(months=1)` on the date
component: advance the month, clipping the day to the target month's
length. -/
def addOneMonth (d : Date) : Date :=
  if d.month = 12 then
    ⟨d.year + 1, 1, min d.day (daysInMonth (d.year + 1) 1)⟩
  else
    ⟨d.year, d.month + 1, min d.day (daysInMonth d.year (d.month + 1))⟩

/-! ### Basic calendar lemmas -/

theorem daysInMonth_pos (y m : Nat) : 1 ≤ daysInMonth y m := by
  unfold daysInMonth
  split_ifs <;> omega

theorem daysInMonth_le (y m : Nat) : daysInMonth y m ≤ 31 := by
  unfold daysInMonth
  split_ifs <;> omega

theorem daysBeforeMonth_succ (y m : Nat) (hm : 1 ≤ m) :
    daysBeforeMonth y (m + 1) = daysBeforeMonth y m + daysInMonth y m := by
  cases m with
  | zero => omega
  | succ k => rfl

theorem leaps_succ (n : Nat) :
    leaps (n + 1) = leaps n + (if isLeap (n + 1) then 1 else 0) := by
  have h1 : n / 100 ≤ n / 4 := Nat.div_le_div_left (by norm_num) (by norm_num)
  have h2 : (isLeap (n + 1) = true) ↔
      (((n + 1) % 4 = 0 ∧ (n + 1) % 100 ≠ 0) ∨ (n + 1) % 400 = 0) := by
    simp [isLeap]
  have h3 : (if isLeap (n + 1) then 1 else 0) =
      (if (((n + 1) % 4 = 0 ∧ (n + 1) % 100 ≠ 0) ∨ (n + 1) % 400 = 0) then 1 else 0) := by
    split_ifs with ha hb hc
    · rfl
    · exact absurd (h2.mp ha) hb
    · exact absurd (h2.mpr hc) ha
    · rfl
  unfold leaps
  rw [Nat.succ_div n 4, Nat.succ_div n 400, Nat.succ_div n 100, h3]
  split_ifs <;> omega

theorem daysBeforeYear_succ (y : Nat) (hy : 1 ≤ y) :
    daysBeforeYear (y + 1) = daysBeforeYear y + (if isLeap y then 366 else 365) := by
  obtain ⟨k, rfl⟩ : ∃ k, y = k + 1 := ⟨y - 1, by omega⟩
  unfold daysBeforeYear
  simp only [Nat.add_sub_cancel]
  rw [leaps_succ k]
  split_ifs <;> omega

theorem daysBeforeMonth_twelve (y : Nat) :
    daysBeforeMonth y 12 = if isLeap y then 335 else 334 := by
  cases hL : isLeap y <;> simp [daysBeforeMonth, daysInMonth, hL]

theorem toDays_succDay (d : Date) (h : d.Valid) :
    toDays (succDay d) = toDays d + 1 := by
  obtain ⟨hy, hm1, hm2, hd1, hd2⟩ := h
  unfold succDay
  split_ifs with h1 h2
  · simp only [toDays]
    omega
  · simp only [toDays]
    rw [daysBeforeMonth_succ d.year d.month hm1]
    omega
  · have hm12 : d.month = 12 := by omega
    have hdim : daysInMonth d.year 12 = 31 := by simp [daysInMonth]
    have hday : d.day = 31 := by
      rw [hm12] at hd2 h1
      omega
    simp only [toDays]
    have hb1 : daysBeforeMonth (d.year + 1) 1 = 0 := rfl
    rw [hb1, daysBeforeYear_succ d.year hy, hm12, hday,
      daysBeforeMonth_twelve d.year]
    split_ifs <;> omega

theorem Valid_succDay (d : Date) (h : d.Valid) : (succDay d).Valid := by
  obtain ⟨hy, hm1, hm2, hd1, hd2⟩ := h
  have hp1 := daysInMonth_pos d.year (d.month + 1)
  have hp2 := daysInMonth_pos (d.year + 1) 1
  unfold succDay Date.Valid
  split_ifs with h1 h2 <;> dsimp only <;> omega

theorem toDays_iterate_succDay (k : Nat) (d : Date) (h : d.Valid) :
    toDays (succDay^[k] d) = toDays d + k ∧ (succDay^[k] d).Valid := by
  induction k with
  | zero => exact ⟨by simp, by simpa using h⟩
  | succ n ih =>
    rw [Function.iterate_succ_apply']
    refine ⟨?_, Valid_succDay _ ih.2⟩
    rw [toDays_succDay _ ih.2, ih.1]
    omega

theorem toDays_addOneMonth_gt (d : Date) (h : d.Valid) :
    toDays d < toDays (addOneMonth d) := by
  obtain ⟨hy, hm1, hm2, hd1, hd2⟩ := h
  unfold addOneMonth
  split_ifs with h12
  · have hdim : daysInMonth d.year 12 = 31 := by simp [daysInMonth]
    have h31 : daysInMonth (d.year + 1) 1 = 31 := by simp [daysInMonth]
    have hb1 : daysBeforeMonth (d.year + 1) 1 = 0 := rfl
    rw [h12] at hd2
    rw [hdim] at hd2
    unfold toDays
    dsimp only
    rw [h31, hb1, daysBeforeYear_succ d.year hy, h12, daysBeforeMonth_twelve d.year]
    split_ifs <;> omega
  · have hstep := daysBeforeMonth_succ d.year d.month hm1
    have hp1 := daysInMonth_pos d.year d.month
    have hp2 := daysInMonth_pos d.year (d.month + 1)
    unfold toDays
    dsimp only
    rw [hstep]
    omega

/-! ### Datetime model (Python naive `datetime`)

A naive `datetime` is a calendar date plus a second-of-day.  Adding
`timedelta(days=k)` advances the date by `k` calendar days and leaves the
time of day unchanged; ordering and subtraction of datetimes are ordering
and subtraction of the corresponding instants `toSecs`. -/

structure DT where
  date : Date
  sod : Nat
deriving DecidableEq, Repr

/-- Seconds since 0001-01-01 00:00:00 of a datetime. -/
def DT.toSecs (t : DT) : Nat := 86400 * toDays t.date + t.sod

/-- Python `t + timedelta(days=k)`. -/
def DT.addDays (t : DT) (k : Nat) : DT := ⟨succDay^[k] t.date, t.sod⟩

/-- Python `t.weekday()` (Monday = 0 .. Sunday = 6). -/
def DT.weekday (t : DT) : Nat := dayOfWeek t.date

/-- Python `t + timedelta(seconds=s)`. -/
def DT.addSecs (t : DT) (s : Nat) : DT :=
  ⟨succDay^[(t.sod + s) / 86400] t.date, (t.sod + s) % 86400⟩

theorem toSecs_addDays (t : DT) (k : Nat) (h : t.date.Valid) :
    (t.addDays k).toSecs = t.toSecs + 86400 * k := by
  unfold DT.addDays DT.toSecs
  dsimp only
  rw [(toDays_iterate_succDay k t.date h).1]
  ring

theorem Valid_addDays (t : DT) (k : Nat) (h : t.date.Valid) :
    (t.addDays k).date.Valid :=
  (toDays_iterate_succDay k t.date h).2

theorem weekday_addDays (t : DT) (k : Nat) (h : t.date.Valid) :
    (t.addDays k).weekday = (toDays t.date + k) % 7 := by
  unfold DT.addDays DT.weekday dayOfWeek
  dsimp only
  rw [(toDays_iterate_succDay k t.date h).1]

theorem addDays_addDays (t : DT) (a b : Nat) :
    (t.addDays a).addDays b = t.addDays (a + b) := by
  unfold DT.addDays
  dsimp only
  rw [← Function.iterate_add_apply, Nat.add_comm b a]

/-! ### The recurrence function

`SchedulerService.calculate_next_recurrence` (`services/scheduler/service.py`
lines 269-297); the identical function is duplicated as
`RecordingService.calculate_next_recurrence`
(`services/recording/service.py` lines 376-404).

The two Python `while` loops (skip weekend days / skip weekdays) are
embedded with an explicit fuel of 7; the guard can hold for at most 2
(resp. 5) consecutive days, so the fuel is never exhausted — this is
proved as part of the minimality theorem for claim C7. -/

/-- The `weekdays` loop: `while next_time.weekday() >= 5: next_time += 1d`. -/
def skipWhileWeekend : Nat → DT → DT
  | 0, t => t
  | fuel + 1, t => if 5 ≤ t.weekday then skipWhileWeekend fuel (t.addDays 1) else t

/-- The `weekends` loop: `while next_time.weekday() < 5: next_time += 1d`. -/
def skipWhileWeekday : Nat → DT → DT
  | 0, t => t
  | fuel + 1, t => if t.weekday < 5 then skipWhileWeekday fuel (t.addDays 1) else t

/-- `calculate_next_recurrence(current_time, recurrence_type)`: `daily` adds
one day, `weekdays`/`weekends` add one day repeatedly until the weekday
falls in the target set, `weekly` adds `timedelta(weeks=1)` = 7 days,
`monthly` adds `relativedelta(months=1)`, and any other type raises
`ValueError` (modelled as `Except.error`). -/
def calculate_next_recurrence (current_time : DT) (recurrence_type : String) :
    Except String DT :=
  if recurrence_type = "daily" then
    .ok (current_time.addDays 1)
  else if recurrence_type = "weekdays" then
    .ok (skipWhileWeekend 7 (current_time.addDays 1))
  else if recurrence_type = "weekends" then
    .ok (skipWhileWeekday 7 (current_time.addDays 1))
  else if recurrence_type = "weekly" then
    .ok (current_time.addDays 7)
  else if recurrence_type = "monthly" then
    .ok ⟨addOneMonth current_time.date, current_time.sod⟩
  else
    .error ("Unknown recurrence type: " ++ recurrence_type)

theorem skipWhileWeekend_step_true (fuel : Nat) (t : DT) (h : 5 ≤ t.weekday) :
    skipWhileWeekend (fuel + 1) t = skipWhileWeekend fuel (t.addDays 1) := by
  simp [skipWhileWeekend, h]

theorem skipWhileWeekend_step_false (fuel : Nat) (t : DT) (h : t.weekday < 5) :
    skipWhileWeekend (fuel + 1) t = t := by
  simp [skipWhileWeekend]
  omega

theorem skipWhileWeekday_step_true (fuel : Nat) (t : DT) (h : t.weekday < 5) :
    skipWhileWeekday (fuel + 1) t = skipWhileWeekday fuel (t.addDays 1) := by
  simp [skipWhileWeekday, h]

theorem skipWhileWeekday_step_false (fuel : Nat) (t : DT) (h : 5 ≤ t.weekday) :
    skipWhileWeekday (fuel + 1) t = t := by
  simp [skipWhileWeekday]
  omega

theorem skipWhileWeekend_spec (fuel : Nat) (u : DT) (m : Nat) (hm : m ≤ fuel)
    (hexit : (u.addDays m).weekday < 5)
    (hcont : ∀ j, j < m → 5 ≤ (u.addDays j).weekday) :
    skipWhileWeekend fuel u = u.addDays m := by
  induction fuel generalizing u m with
  | zero =>
    have hm0 : m = 0 := by omega
    subst hm0
    rfl
  | succ f ih =>
    by_cases h : 5 ≤ u.weekday
    · have hm0 : m ≠ 0 := by
        intro h0
        subst h0
        have : u.addDays 0 = u := rfl
        rw [this] at hexit
        omega
      rw [skipWhileWeekend_step_true f u h]
      have step : skipWhileWeekend f (u.addDays 1) = (u.addDays 1).addDays (m - 1) := by
        apply ih (u.addDays 1) (m - 1) (by omega)
        · rw [addDays_addDays]
          have : 1 + (m - 1) = m := by omega
          rw [this]
          exact hexit
        · intro j hj
          rw [addDays_addDays]
          exact hcont (1 + j) (by omega)
      rw [step, addDays_addDays]
      congr 1
      omega
    · have hm0 : m = 0 := by
        by_contra h0
        have := hcont 0 (by omega)
        have h00 : u.addDays 0 = u := rfl
        rw [h00] at this
        omega
      subst hm0
      exact skipWhileWeekend_step_false f u (by omega)

theorem skipWhileWeekday_spec (fuel : Nat) (u : DT) (m : Nat) (hm : m ≤ fuel)
    (hexit : 5 ≤ (u.addDays m).weekday)
    (hcont : ∀ j, j < m → (u.addDays j).weekday < 5) :
    skipWhileWeekday fuel u = u.addDays m := by
  induction fuel generalizing u m with
  | zero =>
    have hm0 : m = 0 := by omega
    subst hm0
    rfl
  | succ f ih =>
    by_cases h : u.weekday < 5
    · have hm0 : m ≠ 0 := by
        intro h0
        subst h0
        have : u.addDays 0 = u := rfl
        rw [this] at hexit
        omega
      rw [skipWhileWeekday_step_true f u h]
      have step : skipWhileWeekday f (u.addDays 1) = (u.addDays 1).addDays (m - 1) := by
        apply ih (u.addDays 1) (m - 1) (by omega)
        · rw [addDays_addDays]
          have : 1 + (m - 1) = m := by omega
          rw [this]
          exact hexit
        · intro j hj
          rw [addDays_addDays]
          exact hcont (1 + j) (by omega)
      rw [step, addDays_addDays]
      congr 1
      omega
    · have hm0 : m = 0 := by
        by_contra h0
        have := hcont 0 (by omega)
        have h00 : u.addDays 0 = u := rfl
        rw [h00] at this
        omega
      subst hm0
      exact skipWhileWeekday_step_false f u (by omega)

theorem skipWhileWeekend_toSecs_ge (fuel : Nat) (u : DT) (hv : u.date.Valid) :
    u.toSecs ≤ (skipWhileWeekend fuel u).toSecs ∧ (skipWhileWeekend fuel u).date.Valid := by
  induction fuel generalizing u with
  | zero => exact ⟨le_refl _, hv⟩
  | succ f ih =>
    by_cases h : 5 ≤ u.weekday
    · rw [skipWhileWeekend_step_true f u h]
      have hv1 : (u.addDays 1).date.Valid := Valid_addDays u 1 hv
      have := ih (u.addDays 1) hv1
      have hs : (u.addDays 1).toSecs = u.toSecs + 86400 * 1 := toSecs_addDays u 1 hv
      exact ⟨by omega, this.2⟩
    · rw [skipWhileWeekend_step_false f u (by omega)]
      exact ⟨le_refl _, hv⟩

theorem skipWhileWeekday_toSecs_ge (fuel : Nat) (u : DT) (hv : u.date.Valid) :
    u.toSecs ≤ (skipWhileWeekday fuel u).toSecs ∧ (skipWhileWeekday fuel u).date.Valid := by
  induction fuel generalizing u with
  | zero => exact ⟨le_refl _, hv⟩
  | succ f ih =>
    by_cases h : u.weekday < 5
    · rw [skipWhileWeekday_step_true f u h]
      have hv1 : (u.addDays 1).date.Valid := Valid_addDays u 1 hv
      have := ih (u.addDays 1) hv1
      have hs : (u.addDays 1).toSecs = u.toSecs + 86400 * 1 := toSecs_addDays u 1 hv
      exact ⟨by omega, this.2⟩
    · rw [skipWhileWeekday_step_false f u (by omega)]
      exact ⟨le_refl _, hv⟩

/-- Every successful result of the recurrence function is a strictly later
instant, whatever the recurrence type. -/
theorem calculate_next_recurrence_lt (t : DT) (ty : String) (t' : DT)
    (hv : t.date.Valid) (h : calculate_next_recurrence t ty = .ok t') :
    t.toSecs < t'.toSecs := by
  by_cases c1 : ty = "daily"
  · subst c1
    rw [show calculate_next_recurrence t "daily" = .ok (t.addDays 1) from rfl] at h
    rw [← Except.ok.inj h, toSecs_addDays t 1 hv]
    omega
  by_cases c2 : ty = "weekdays"
  · subst c2
    rw [show calculate_next_recurrence t "weekdays"
        = .ok (skipWhileWeekend 7 (t.addDays 1)) from rfl] at h
    rw [← Except.ok.inj h]
    have h1 := toSecs_addDays t 1 hv
    have h2 := skipWhileWeekend_toSecs_ge 7 (t.addDays 1) (Valid_addDays t 1 hv)
    omega
  by_cases c3 : ty = "weekends"
  · subst c3
    rw [show calculate_next_recurrence t "weekends"
        = .ok (skipWhileWeekday 7 (t.addDays 1)) from rfl] at h
    rw [← Except.ok.inj h]
    have h1 := toSecs_addDays t 1 hv
    have h2 := skipWhileWeekday_toSecs_ge 7 (t.addDays 1) (Valid_addDays t 1 hv)
    omega
  by_cases c4 : ty = "weekly"
  · subst c4
    rw [show calculate_next_recurrence t "weekly" = .ok (t.addDays 7) from rfl] at h
    rw [← Except.ok.inj h, toSecs_addDays t 7 hv]
    omega
  by_cases c5 : ty = "monthly"
  · subst c5
    rw [show calculate_next_recurrence t "monthly"
        = .ok ⟨addOneMonth t.date, t.sod⟩ from rfl] at h
    rw [← Except.ok.inj h]
    unfold DT.toSecs
    dsimp only
    have := toDays_addOneMonth_gt t.date hv
    omega
  unfold calculate_next_recurrence at h
  rw [if_neg c1, if_neg c2, if_neg c3, if_neg c4, if_neg c5] at h
  exact Except.noConfusion h

theorem addOneMonth_step_index (e : Date) (i1 : 1 ≤ e.month) (i2 : e.month ≤ 12) :
    (1 ≤ (addOneMonth e).month ∧ (addOneMonth e).month ≤ 12) ∧
      12 * (addOneMonth e).year + (addOneMonth e).month = 12 * e.year + e.month + 1 := by
  unfold addOneMonth
  split_ifs with h12 <;> dsimp only <;> omega

theorem addOneMonth_iterate_index (n : Nat) (d : Date)
    (h1 : 1 ≤ d.month) (h2 : d.month ≤ 12) :
    1 ≤ (addOneMonth^[n] d).month ∧ (addOneMonth^[n] d).month ≤ 12 ∧
      12 * (addOneMonth^[n] d).year + (addOneMonth^[n] d).month =
        12 * d.year + d.month + n := by
  induction n with
  | zero => simpa using ⟨h1, h2⟩
  | succ k ih =>
    rw [Function.iterate_succ_apply']
    obtain ⟨i1, i2, i3⟩ := ih
    obtain ⟨⟨s1, s2⟩, s3⟩ := addOneMonth_step_index (addOneMonth^[k] d) i1 i2
    exact ⟨s1, s2, by omega⟩

theorem weekdays_case (t : DT) (hv : t.date.Valid) (k : Nat)
    (hk1 : 1 ≤ k) (hk8 : k ≤ 8)
    (hexit : (toDays t.date + k) % 7 < 5)
    (hcont : ∀ j, 1 ≤ j → j < k → 5 ≤ (toDays t.date + j) % 7) :
    calculate_next_recurrence t "weekdays" = .ok (t.addDays k) ∧
      (t.addDays k).weekday < 5 ∧
      ∀ j, 1 ≤ j → j < k → 5 ≤ (t.addDays j).weekday := by
  have wd : ∀ j, (t.addDays j).weekday = (toDays t.date + j) % 7 :=
    fun j => weekday_addDays t j hv
  refine ⟨?_, by rw [wd k]; exact hexit,
    fun j h1 h2 => by rw [wd j]; exact hcont j h1 h2⟩
  rw [show calculate_next_recurrence t "weekdays"
      = .ok (skipWhileWeekend 7 (t.addDays 1)) from rfl]
  have e1 : 1 + (k - 1) = k := by omega
  have hs := skipWhileWeekend_spec 7 (t.addDays 1) (k - 1) (by omega)
    (by rw [addDays_addDays, e1, wd k]; exact hexit)
    (fun j hj => by
      rw [addDays_addDays, wd (1 + j)]
      exact hcont (1 + j) (by omega) (by omega))
  rw [hs, addDays_addDays, e1]

theorem weekends_case (t : DT) (hv : t.date.Valid) (k : Nat)
    (hk1 : 1 ≤ k) (hk8 : k ≤ 8)
    (hexit : 5 ≤ (toDays t.date + k) % 7)
    (hcont : ∀ j, 1 ≤ j → j < k → (toDays t.date + j) % 7 < 5) :
    calculate_next_recurrence t "weekends" = .ok (t.addDays k) ∧
      5 ≤ (t.addDays k).weekday ∧
      ∀ j, 1 ≤ j → j < k → (t.addDays j).weekday < 5 := by
  have wd : ∀ j, (t.addDays j).weekday = (toDays t.date + j) % 7 :=
    fun j => weekday_addDays t j hv
  refine ⟨?_, by rw [wd k]; exact hexit,
    fun j h1 h2 => by rw [wd j]; exact hcont j h1 h2⟩
  rw [show calculate_next_recurrence t "weekends"
      = .ok (skipWhileWeekday 7 (t.addDays 1)) from rfl]
  have e1 : 1 + (k - 1) = k := by omega
  have hs := skipWhileWeekday_spec 7 (t.addDays 1) (k - 1) (by omega)
    (by rw [addDays_addDays, e1, wd k]; exact hexit)
    (fun j hj => by
      rw [addDays_addDays, wd (1 + j)]
      exact hcont (1 + j) (by omega) (by omega))
  rw [hs, addDays_addDays, e1]

/-- C7: for every reference time, `daily` adds exactly one day and `weekly`
exactly seven days (as instants, hence across month and year boundaries);
`weekdays` (resp. `weekends`) returns the smallest positive day increment
landing on Monday-Friday (resp. Saturday-Sunday); an unknown recurrence
type raises `ValueError` instead of applying a default. -/
theorem C7_recurrence_function (t : DT) (hv : t.date.Valid) :
    (calculate_next_recurrence t "daily" = .ok (t.addDays 1) ∧
      (t.addDays 1).toSecs = t.toSecs + 86400) ∧
    (calculate_next_recurrence t "weekly" = .ok (t.addDays 7) ∧
      (t.addDays 7).toSecs = t.toSecs + 7 * 86400) ∧
    (∃ k, 1 ≤ k ∧ calculate_next_recurrence t "weekdays" = .ok (t.addDays k) ∧
      (t.addDays k).weekday < 5 ∧ ∀ j, 1 ≤ j → j < k → 5 ≤ (t.addDays j).weekday) ∧
    (∃ k, 1 ≤ k ∧ calculate_next_recurrence t "weekends" = .ok (t.addDays k) ∧
      5 ≤ (t.addDays k).weekday ∧ ∀ j, 1 ≤ j → j < k → (t.addDays j).weekday < 5) ∧
    (∀ ty, ty ≠ "daily" → ty ≠ "weekdays" → ty ≠ "weekends" → ty ≠ "weekly" →
      ty ≠ "monthly" →
      calculate_next_recurrence t ty = .error ("Unknown recurrence type: " ++ ty)) := by
  refine ⟨⟨rfl, by rw [toSecs_addDays t 1 hv]⟩,
    ⟨rfl, by rw [toSecs_addDays t 7 hv]⟩, ?_, ?_, ?_⟩
  · by_cases hc4 : toDays t.date % 7 = 4
    · obtain ⟨a, b, c⟩ := weekdays_case t hv 3 (by norm_num) (by norm_num)
        (by omega) (fun j h1 h2 => by omega)
      exact ⟨3, by norm_num, a, b, c⟩
    by_cases hc5 : toDays t.date % 7 = 5
    · obtain ⟨a, b, c⟩ := weekdays_case t hv 2 (by norm_num) (by norm_num)
        (by omega) (fun j h1 h2 => by omega)
      exact ⟨2, by norm_num, a, b, c⟩
    · have hlt : toDays t.date % 7 < 7 := Nat.mod_lt _ (by norm_num)
      obtain ⟨a, b, c⟩ := weekdays_case t hv 1 (by norm_num) (by norm_num)
        (by omega) (fun j h1 h2 => by omega)
      exact ⟨1, by norm_num, a, b, c⟩
  · have hlt : toDays t.date % 7 < 7 := Nat.mod_lt _ (by norm_num)
    by_cases hc6 : toDays t.date % 7 = 6
    · obtain ⟨a, b, c⟩ := weekends_case t hv 6 (by norm_num) (by norm_num)
        (by omega) (fun j h1 h2 => by omega)
      exact ⟨6, by norm_num, a, b, c⟩
    by_cases hc5 : toDays t.date % 7 = 5
    · obtain ⟨a, b, c⟩ := weekends_case t hv 1 (by norm_num) (by norm_num)
        (by omega) (fun j h1 h2 => by omega)
      exact ⟨1, by norm_num, a, b, c⟩
    · have hcle : toDays t.date % 7 ≤ 4 := by omega
      obtain ⟨a, b, c⟩ := weekends_case t hv (5 - toDays t.date % 7) (by omega) (by omega)
        (by omega) (fun j h1 h2 => by omega)
      exact ⟨5 - toDays t.date % 7, by omega, a, b, c⟩
  · intro ty h1 h2 h3 h4 h5
    unfold calculate_next_recurrence
    rw [if_neg h1, if_neg h2, if_neg h3, if_neg h4, if_neg h5]

theorem C7_recurrence_function_witness :
    (calculate_next_recurrence ⟨⟨2025, 10, 12⟩, 0⟩ "daily"
        = .ok (DT.addDays ⟨⟨2025, 10, 12⟩, 0⟩ 1) ∧
      (DT.addDays ⟨⟨2025, 10, 12⟩, 0⟩ 1).toSecs
        = (DT.toSecs ⟨⟨2025, 10, 12⟩, 0⟩) + 86400) ∧
    (calculate_next_recurrence ⟨⟨2025, 10, 12⟩, 0⟩ "weekly"
        = .ok (DT.addDays ⟨⟨2025, 10, 12⟩, 0⟩ 7) ∧
      (DT.addDays ⟨⟨2025, 10, 12⟩, 0⟩ 7).toSecs
        = (DT.toSecs ⟨⟨2025, 10, 12⟩, 0⟩) + 7 * 86400) := by
  have h := C7_recurrence_function ⟨⟨2025, 10, 12⟩, 0⟩ (by decide)
  exact ⟨h.1, h.2.1⟩

/-- C8: `monthly` applied to January 31 lands on February 28 (February 29 in a
leap year), the day being clipped to the target month's length; and 12
successive `monthly` applications return to the same calendar month exactly
one year later. -/
theorem C8_monthly_clip_and_cycle (t : DT) (d : Date)
    (h1 : 1 ≤ d.month) (h2 : d.month ≤ 12) :
    calculate_next_recurrence ⟨⟨2025, 1, 31⟩, 0⟩ "monthly" = .ok ⟨⟨2025, 2, 28⟩, 0⟩ ∧
    calculate_next_recurrence ⟨⟨2024, 1, 31⟩, 0⟩ "monthly" = .ok ⟨⟨2024, 2, 29⟩, 0⟩ ∧
    calculate_next_recurrence t "monthly" = .ok ⟨addOneMonth t.date, t.sod⟩ ∧
    (addOneMonth^[12] d).month = d.month ∧ (addOneMonth^[12] d).year = d.year + 1 := by
  obtain ⟨i1, i2, i3⟩ := addOneMonth_iterate_index 12 d h1 h2
  exact ⟨rfl, rfl, rfl, by omega, by omega⟩

theorem C8_monthly_witness :
    calculate_next_recurrence ⟨⟨2025, 1, 31⟩, 0⟩ "monthly" = .ok ⟨⟨2025, 2, 28⟩, 0⟩ ∧
    (addOneMonth^[12] ⟨2025, 1, 31⟩).month = 1 ∧
    (addOneMonth^[12] (⟨2025, 1, 31⟩ : Date)).year = 2026 := by
  have h := C8_monthly_clip_and_cycle ⟨⟨2025, 1, 31⟩, 0⟩ ⟨2025, 1, 31⟩
    (by norm_num) (by norm_num)
  exact ⟨h.1, h.2.2.2.1, h.2.2.2.2⟩

/-! ### Job store model (`shared/models.py`)

A `Recording` row.  Columns not read or written by the embedded code
(`nextcloud_base_dir`, the two storage sub-status columns, timestamps) are
omitted.  The nullable `recurrence_type` column is modelled as a `String`
whose empty value, like Python `None`, matches no known recurrence type. -/

structure Rec where
  id : Nat
  name : String
  station_id : Nat
  podcast_id : Option Nat
  start_time : DT
  end_time : DT
  duration : Nat
  status : String
  file_path : Option String
  file_size : Option Nat
  format : String
  bitrate : Nat
  is_recurring : Bool
  recurrence_type : String
  recurrence_end : Option DT
  save_to_additional_local : Bool
  save_to_nextcloud : Bool
  was_interrupted : Bool
deriving DecidableEq, Repr

/-- A `Station` row (fields used by the embedded code). -/
structure StationR where
  id : Nat
  name : String
  stream_url : String
  format : String
  bitrate : Nat
  is_valid : Bool
deriving DecidableEq, Repr

/-- A `Podcast` row (fields used by the embedded code). -/
structure PodcastR where
  id : Nat
  title : String
deriving DecidableEq, Repr

/-- A `PodcastEpisode` row (fields used by the embedded code). -/
structure EpisodeR where
  podcast_id : Nat
  recording_id : Nat
  title : String
  description : String
deriving DecidableEq, Repr

/-- The relational job store.  `nextId` models primary-key assignment on
insert. -/
structure DB where
  recordings : List Rec
  stations : List StationR
  podcasts : List PodcastR
  episodes : List EpisodeR
  nextId : Nat
deriving DecidableEq, Repr

/-- `db.query(Recording).filter(Recording.id == rid).first()`. -/
def findRec (db : DB) (rid : Nat) : Option Rec :=
  db.recordings.find? (fun r => r.id == rid)

/-- Mutate the row with id `rid` and commit (single-row atomic write). -/
def updateRec (db : DB) (rid : Nat) (f : Rec → Rec) : DB :=
  { db with recordings := db.recordings.map (fun r => if r.id == rid then f r else r) }

/-- The stored status of a job, if the row exists. -/
def recStatus (db : DB) (rid : Nat) : Option String :=
  (findRec db rid).map Rec.status

/-- Externally visible effects of the embedded operations, in order. -/
inductive Action where
  | persist (recording_id : Nat) (status : String)
  | publishStart (ok : Bool)
  | commitCompletion (recording_id : Nat) (status : String)
      (file_path : Option String) (file_size : Option Nat)
  | publishCompleted (ok : Bool)
deriving DecidableEq, Repr

/-! ### Schedule coordinator (`services/scheduler/service.py`)

The readiness probe and the publish attempts are driven by outcome
oracles `probe i` / `pub i` (whether the i-th attempt succeeds), standing
for the HTTP health check and the broker. -/

/-- The probe loop of `check_recording_service_ready` (lines 55-71):
up to `fuel` attempts starting at attempt index `i`. -/
def readyProbeLoop (probe : Nat → Bool) : Nat → Nat → Bool
  | 0, _ => false
  | n + 1, i => if probe i then true else readyProbeLoop probe n (i + 1)

/-- `check_recording_service_ready(max_attempts)`: true iff some attempt
among the first `max_attempts` succeeds. -/
def check_recording_service_ready (probe : Nat → Bool) (max_attempts : Nat) : Bool :=
  readyProbeLoop probe max_attempts 0

/-- The publish retry loop of `start_recording` (lines 232-245): up to
`fuel` attempts starting at attempt index `i`; returns whether a publish
succeeded together with the attempts made. -/
def publishAttempts (pub : Nat → Bool) : Nat → Nat → Bool × List Action
  | 0, _ => (false, [])
  | n + 1, i =>
    if pub i then (true, [.publishStart true])
    else
      let rest := publishAttempts pub n (i + 1)
      (rest.1, .publishStart false :: rest.2)

/-- `SchedulerService.start_recording` (lines 196-255): re-reads the job;
requires status in {SCHEDULED, RECORDING}; persists RECORDING; probes the
worker's health up to 10 times, on exhaustion persists FAILED and aborts;
publishes the start command with up to 3 attempts, on exhaustion persists
FAILED. -/
def start_recording (db : DB) (recording_id : Nat) (probe pub : Nat → Bool) :
    DB × List Action :=
  match findRec db recording_id with
  | none => (db, [])
  | some recording =>
    if recording.status = "SCHEDULED" ∨ recording.status = "RECORDING" then
      let db1 := updateRec db recording_id (fun r => { r with status := "RECORDING" })
      if check_recording_service_ready probe 10 then
        let res := publishAttempts pub 3 0
        if res.1 then
          (db1, .persist recording_id "RECORDING" :: res.2)
        else
          (updateRec db1 recording_id (fun r => { r with status := "FAILED" }),
            .persist recording_id "RECORDING" :: res.2 ++ [.persist recording_id "FAILED"])
      else
        (updateRec db1 recording_id (fun r => { r with status := "FAILED" }),
          [.persist recording_id "RECORDING", .persist recording_id "FAILED"])
    else
      (db, [])

/-- An APScheduler job id: `f"start_{id}"` or `f"stop_{id}"`. -/
inductive TimerKey where
  | start (recording_id : Nat)
  | stop (recording_id : Nat)
deriving DecidableEq, Repr

/-- An armed APScheduler `DateTrigger` job. -/
structure Timer where
  key : TimerKey
  run_date : DT
deriving DecidableEq, Repr

/-- `scheduler.add_job(..., id=key, replace_existing=True)`: any prior
timer with the same key is replaced. -/
def add_job (timers : List Timer) (key : TimerKey) (run_date : DT) : List Timer :=
  timers.filter (fun tm => tm.key != key) ++ [⟨key, run_date⟩]

/-- `SchedulerService.handle_recording_schedule` (lines 139-178): if
`start_time <= now <= end_time` the recording is started immediately and
the handler returns; otherwise a start timer is armed when
`start_time > now` and a stop timer when `end_time > now`.  Returns the
updated timer table and whether an immediate start was issued. -/
def handle_recording_schedule (timers : List Timer) (now : DT) (recording_id : Nat)
    (start_time end_time : DT) : List Timer × Bool :=
  if start_time.toSecs ≤ now.toSecs ∧ now.toSecs ≤ end_time.toSecs then
    (timers, true)
  else
    let t1 := if now.toSecs < start_time.toSecs then
        add_job timers (.start recording_id) start_time
      else timers
    let t2 := if now.toSecs < end_time.toSecs then
        add_job t1 (.stop recording_id) end_time
      else t1
    (t2, false)

/-- The second query of `check_active_recordings` (lines 103-109): jobs
stuck in RECORDING whose `end_time` lies in the 30-minute lookback window
before `now`. -/
def interruptedWindow (now : DT) (r : Rec) : Prop :=
  r.status = "RECORDING" ∧ r.end_time.toSecs ≤ now.toSecs ∧
    (now.toSecs : Int) - 1800 ≤ (r.end_time.toSecs : Int)

instance (now : DT) (r : Rec) : Decidable (interruptedWindow now r) := by
  unfold interruptedWindow; infer_instance

/-- The per-row resolution of `check_active_recordings` (lines 123-134):
mark `was_interrupted`, then PARTIAL with the actual file size when the
stored path exists on disk, FAILED otherwise.  `fs` is the filesystem
oracle: `fs p = some size` iff path `p` exists with that size. -/
def resolve_interrupted_recording (fs : String → Option Nat) (r : Rec) : Rec :=
  let r1 := { r with was_interrupted := true }
  match r.file_path with
  | some p =>
    match fs p with
    | some size => { r1 with status := "PARTIAL", file_size := some size }
    | none => { r1 with status := "FAILED" }
  | none => { r1 with status := "FAILED" }

/-- The lookback phase of `SchedulerService.check_active_recordings`
(lines 103-134), applied to every row of the store.  (The restart phase
for jobs whose window contains `now` touches a disjoint set of rows,
since it requires `end_time > now`, and is modelled by `start_recording`.) -/
def check_active_recordings_resolve (fs : String → Option Nat) (now : DT) (db : DB) : DB :=
  { db with recordings := db.recordings.map (fun r =>
      if interruptedWindow now r then resolve_interrupted_recording fs r else r) }

/-! ### Capture worker (`services/recording/service.py`) -/

/-- `strftime('%A')` day names, indexed by `weekday()`. -/
def dayName (w : Nat) : String :=
  (["Monday", "Tuesday", "Wednesday", "Thursday", "Friday", "Saturday",
    "Sunday"].getD w "")

/-- `strftime('%B')` month names, indexed by month - 1. -/
def monthName (m : Nat) : String :=
  (["January", "February", "March", "April", "May", "June", "July",
    "August", "September", "October", "November", "December"].getD (m - 1) "")

/-- The ordinal suffix computed in `create_podcast_episode` (lines 349-352).
For day values outside 4-20 and 24-30 the source indexes
`["st","nd","rd"][day % 10 - 1]`, which is well defined because such day
values always satisfy `day % 10` in {1, 2, 3}. -/
def daySuffix (day : Nat) : String :=
  if (4 ≤ day ∧ day ≤ 20) ∨ (24 ≤ day ∧ day ≤ 30) then "th"
  else (["st", "nd", "rd"].getD (day % 10 - 1) "")

/-- Zero-padded two-digit number, as in `strftime('%H:%M')`. -/
def twoDigits (n : Nat) : String :=
  (if n < 10 then "0" else "") ++ toString n

/-- The episode description built in `create_podcast_episode` (line 357). -/
def episodeDescription (r : Rec) : String :=
  r.name ++ ", recorded on " ++ dayName r.start_time.weekday ++ ", " ++
    toString r.start_time.date.day ++ daySuffix r.start_time.date.day ++ " of " ++
    monthName r.start_time.date.month ++ " " ++ toString r.start_time.date.year ++
    " at " ++ twoDigits (r.start_time.sod / 3600) ++ ":" ++
    twoDigits (r.start_time.sod % 3600 / 60)

/-- `RecordingService.create_podcast_episode` (lines 324-374): abandon if the
podcast row is missing; idempotent no-op if an episode keyed by this
recording id already exists; otherwise insert exactly one episode row. -/
def create_podcast_episode (db : DB) (recording : Rec) : DB :=
  match recording.podcast_id with
  | none => db
  | some pid =>
    match db.podcasts.find? (fun p => p.id == pid) with
    | none => db
    | some _ =>
      match db.episodes.find? (fun e => e.recording_id == recording.id) with
      | some _ => db
      | none =>
        { db with episodes := db.episodes ++
            [⟨pid, recording.id, recording.name, episodeDescription recording⟩] }

/-- The next recurring instance inserted by
`schedule_next_recurring_if_needed` (lines 446-458); unspecified columns
take the model defaults (status SCHEDULED, no recurrence fields). -/
def mkNextRecording (tpl : Rec) (next_time : DT) (nid : Nat) : Rec :=
  { id := nid
    name := tpl.name
    station_id := tpl.station_id
    podcast_id := tpl.podcast_id
    start_time := next_time
    end_time := next_time.addSecs tpl.duration
    duration := tpl.duration
    status := "SCHEDULED"
    file_path := none
    file_size := none
    format := tpl.format
    bitrate := tpl.bitrate
    is_recurring := false
    recurrence_type := ""
    recurrence_end := none
    save_to_additional_local := tpl.save_to_additional_local
    save_to_nextcloud := tpl.save_to_nextcloud
    was_interrupted := false }

/-- `RecordingService.schedule_next_recurring_if_needed` (lines 406-466):
find the recurrence template by (name, station); return if none, or if a
later non-template instance already exists; compute the next occurrence
(abandoning on `ValueError`); return if it exceeds `recurrence_end`;
otherwise insert exactly one instance. -/
def schedule_next_recurring_if_needed (db : DB) (completed_recording : Rec) : DB :=
  match db.recordings.find? (fun r =>
      r.name == completed_recording.name &&
      r.station_id == completed_recording.station_id && r.is_recurring) with
  | none => db
  | some recurring_template =>
    match db.recordings.find? (fun r =>
        r.name == recurring_template.name &&
        r.station_id == recurring_template.station_id && !r.is_recurring &&
        decide (completed_recording.start_time.toSecs < r.start_time.toSecs)) with
    | some _ => db
    | none =>
      match calculate_next_recurrence completed_recording.start_time
          recurring_template.recurrence_type with
      | .error _ => db
      | .ok next_time =>
        let insertIt : DB :=
          { db with
            recordings := db.recordings ++
              [mkNextRecording recurring_template next_time db.nextId]
            nextId := db.nextId + 1 }
        match recurring_template.recurrence_end with
        | some re => if re.toSecs < next_time.toSecs then db else insertIt
        | none => insertIt

/-- The completion chaining at the end of `record_stream` (lines 219-223):
create the podcast episode when the job has a podcast reference and a
successful terminal status, then generate the next recurring instance. -/
def completionChain (db : DB) (recording : Rec) : DB :=
  let db1 :=
    if recording.podcast_id.isSome ∧
        (recording.status = "COMPLETE" ∨ recording.status = "PARTIAL") then
      create_podcast_episode db recording
    else db
  schedule_next_recurring_if_needed db1 recording

/-- `RecordingService.record_stream` (lines 140-239, the live
single-process implementation; the multi-part block at lines 241-290 sits
inside the `except` handler after FAILED has been committed, references
the undefined name `total_parts`, and is flagged as superseded by the
spec).  `exitCode` is the capture process's exit status, `fs` the
filesystem oracle after the process ends, `pubOk` whether the completion
publish succeeds.  Returns the new store and the visible actions. -/
def record_stream (db : DB) (recording_id : Nat) (output_file : String)
    (end_time now : DT) (exitCode : Int) (fs : String → Option Nat)
    (pubOk : Bool) : DB × List Action :=
  if (end_time.toSecs : Int) - (now.toSecs : Int) ≤ 0 then
    (db, [])
  else
    match findRec db recording_id with
    | none => (db, [])
    | some recording =>
      let outcome : String × Option String × Option Nat :=
        if exitCode = 0 ∧ (fs output_file).isSome then
          (if recording.was_interrupted then "PARTIAL" else "COMPLETE",
            some output_file, fs output_file)
        else
          ("FAILED", recording.file_path, recording.file_size)
      let committed : Rec :=
        { recording with
          status := outcome.1
          file_path := outcome.2.1
          file_size := outcome.2.2 }
      let db1 := updateRec db recording_id (fun x =>
        { x with
          status := outcome.1
          file_path := outcome.2.1
          file_size := outcome.2.2 })
      let db2 := completionChain db1 committed
      (db2, [.commitCompletion recording_id outcome.1 outcome.2.1 outcome.2.2,
        .publishCompleted pubOk])

/-- The payload of a `recording.start` command. -/
structure StartMsg where
  recording_id : Nat
  station_id : Nat
  name : String
  format : String
  bitrate : Nat
  end_time : DT
deriving DecidableEq, Repr

/-- `RecordingService.handle_recording_start` (lines 56-126) up to the
launch of the capture thread: reject a duplicate start, re-validate
RECORDING status in the store, resolve the station and require it valid.
Returns the store, the updated duplicate-tracking map (as the list of
active ids), and whether a capture was launched. -/
def handle_recording_start (db : DB) (active : List Nat) (msg : StartMsg) :
    DB × List Nat × Bool :=
  if msg.recording_id ∈ active then
    (db, active, false)
  else
    match findRec db msg.recording_id with
    | none => (db, active, false)
    | some recording =>
      if recording.status ≠ "RECORDING" then
        (db, active, false)
      else
        match db.stations.find? (fun s => s.id == msg.station_id) with
        | none => (db, active, false)
        | some station =>
          if station.is_valid then
            (db, msg.recording_id :: active, true)
          else
            (db, active, false)

/-! ### Store lemmas -/

theorem find?_map_update (l : List Rec) (rid : Nat) (f : Rec → Rec)
    (hid : ∀ r, (f r).id = r.id) :
    (l.map (fun r => if r.id == rid then f r else r)).find? (fun r => r.id == rid)
      = (l.find? (fun r => r.id == rid)).map f := by
  induction l with
  | nil => rfl
  | cons a t ih =>
    by_cases hp : (a.id == rid) = true
    · have hfa : ((f a).id == rid) = true := by rw [hid a]; exact hp
      simp only [List.map_cons, if_pos hp, List.find?_cons, hfa, hp]
      simp [hfa]
    · rw [Bool.not_eq_true] at hp
      simp only [List.map_cons, hp, if_neg, Bool.false_eq_true, List.find?_cons]
      simpa [hp] using ih

theorem findRec_updateRec (db : DB) (rid : Nat) (f : Rec → Rec)
    (hid : ∀ r, (f r).id = r.id) :
    findRec (updateRec db rid f) rid = (findRec db rid).map f := by
  unfold findRec updateRec
  exact find?_map_update db.recordings rid f hid

theorem findRec_append_some (db : DB) (l : List Rec) (rid : Nat) (x : Rec)
    (h : findRec db rid = some x) :
    ({ db with recordings := db.recordings ++ l, nextId := db.nextId + 1 } : DB).recordings.find?
        (fun r => r.id == rid) = some x := by
  unfold findRec at h
  dsimp only
  rw [List.find?_append, h]
  rfl

/-! ### Scheduler retry loop lemmas -/

theorem readyProbeLoop_false (probe : Nat → Bool) (n i : Nat)
    (h : ∀ j, j < n → probe (i + j) = false) :
    readyProbeLoop probe n i = false := by
  induction n generalizing i with
  | zero => rfl
  | succ m ih =>
    have h0 : probe i = false := by simpa using h 0 (by omega)
    have hrec := ih (i + 1) (fun j hj => by
      have := h (j + 1) (by omega)
      rw [show i + (j + 1) = i + 1 + j by omega] at this
      exact this)
    simp [readyProbeLoop, h0, hrec]

theorem publishAttempts_all_fail (pub : Nat → Bool) (n i : Nat)
    (h : ∀ j, j < n → pub (i + j) = false) :
    publishAttempts pub n i = (false, List.replicate n (.publishStart false)) := by
  induction n generalizing i with
  | zero => rfl
  | succ m ih =>
    have h0 : pub i = false := by simpa using h 0 (by omega)
    have hrec := ih (i + 1) (fun j hj => by
      have := h (j + 1) (by omega)
      rw [show i + (j + 1) = i + 1 + j by omega] at this
      exact this)
    simp [publishAttempts, h0, hrec, List.replicate_succ]

/-! ### Claim C3: the scheduler start path -/

theorem start_recording_probe_fail (db : DB) (rid : Nat) (probe pub : Nat → Bool)
    (r : Rec) (hf : findRec db rid = some r)
    (hs : r.status = "SCHEDULED" ∨ r.status = "RECORDING")
    (hchk : check_recording_service_ready probe 10 = false) :
    start_recording db rid probe pub =
      (updateRec (updateRec db rid (fun x => { x with status := "RECORDING" })) rid
          (fun x => { x with status := "FAILED" }),
        [.persist rid "RECORDING", .persist rid "FAILED"]) := by
  unfold start_recording
  rw [hf]
  dsimp only
  rw [if_pos hs, hchk]
  simp

theorem start_recording_publish_fail (db : DB) (rid : Nat) (probe pub : Nat → Bool)
    (r : Rec) (hf : findRec db rid = some r)
    (hs : r.status = "SCHEDULED" ∨ r.status = "RECORDING")
    (hchk : check_recording_service_ready probe 10 = true)
    (hpub : ∀ i, i < 3 → pub i = false) :
    start_recording db rid probe pub =
      (updateRec (updateRec db rid (fun x => { x with status := "RECORDING" })) rid
          (fun x => { x with status := "FAILED" }),
        .persist rid "RECORDING" :: List.replicate 3 (.publishStart false)
          ++ [.persist rid "FAILED"]) := by
  have hatt : publishAttempts pub 3 0 = (false, List.replicate 3 (.publishStart false)) :=
    publishAttempts_all_fail pub 3 0 (fun j hj => by simpa using hpub j hj)
  unfold start_recording
  rw [hf]
  dsimp only
  rw [if_pos hs, hchk, hatt]
  simp

theorem recStatus_double_update (db : DB) (rid : Nat) (r : Rec) (s1 s2 : String)
    (hf : findRec db rid = some r) :
    recStatus (updateRec (updateRec db rid (fun x => { x with status := s1 })) rid
      (fun x => { x with status := s2 })) rid = some s2 := by
  unfold recStatus
  rw [findRec_updateRec, findRec_updateRec, hf] <;> first
  | rfl
  | (intro x; rfl)

/-- C3: on `start()` for a job with status in {SCHEDULED, RECORDING},
RECORDING is persisted before any other action; if all 10 readiness-probe
attempts fail the job is persisted FAILED and no start command is ever
published; if all 3 publish attempts fail the job is persisted FAILED and
no publish ever succeeded, so no capture is launched. -/
theorem C3_start_path (db : DB) (rid : Nat) (probe pub : Nat → Bool) (r : Rec)
    (hf : findRec db rid = some r)
    (hs : r.status = "SCHEDULED" ∨ r.status = "RECORDING") :
    (start_recording db rid probe pub).2.head? = some (.persist rid "RECORDING") ∧
    ((∀ i, i < 10 → probe i = false) →
      recStatus (start_recording db rid probe pub).1 rid = some "FAILED" ∧
      ∀ b, Action.publishStart b ∉ (start_recording db rid probe pub).2) ∧
    (check_recording_service_ready probe 10 = true →
      (∀ i, i < 3 → pub i = false) →
      recStatus (start_recording db rid probe pub).1 rid = some "FAILED" ∧
      Action.publishStart true ∉ (start_recording db rid probe pub).2) := by
  refine ⟨?_, ?_, ?_⟩
  · unfold start_recording
    rw [hf]
    dsimp only
    rw [if_pos hs]
    by_cases hc : check_recording_service_ready probe 10 = true
    · simp only [hc, if_true]
      by_cases hr : (publishAttempts pub 3 0).1 = true <;> simp [hr]
    · rw [Bool.not_eq_true] at hc
      simp [hc]
  · intro hprobe
    have hchk : check_recording_service_ready probe 10 = false :=
      readyProbeLoop_false probe 10 0 (fun j hj => by simpa using hprobe j hj)
    rw [start_recording_probe_fail db rid probe pub r hf hs hchk]
    refine ⟨recStatus_double_update db rid r "RECORDING" "FAILED" hf, ?_⟩
    intro b
    simp
  · intro hchk hpub
    rw [start_recording_publish_fail db rid probe pub r hf hs hchk hpub]
    refine ⟨recStatus_double_update db rid r "RECORDING" "FAILED" hf, ?_⟩
    simp [List.mem_replicate]

/-- Example job for the C3 witness. -/
def recC3 : Rec :=
  { id := 1, name := "show", station_id := 1, podcast_id := none,
    start_time := ⟨⟨2025, 10, 12⟩, 0⟩, end_time := ⟨⟨2025, 10, 12⟩, 300⟩,
    duration := 300, status := "SCHEDULED", file_path := none, file_size := none,
    format := "mp3", bitrate := 128, is_recurring := false, recurrence_type := "",
    recurrence_end := none, save_to_additional_local := false,
    save_to_nextcloud := false, was_interrupted := false }

/-- Example store for the C3 witness. -/
def dbC3 : DB :=
  { recordings := [recC3], stations := [], podcasts := [], episodes := [], nextId := 2 }

theorem C3_start_path_witness :
    (start_recording dbC3 1 (fun _ => false) (fun _ => false)).2.head?
        = some (.persist 1 "RECORDING") ∧
    recStatus (start_recording dbC3 1 (fun _ => false) (fun _ => false)).1 1
        = some "FAILED" := by
  have h := C3_start_path dbC3 1 (fun _ => false) (fun _ => false) recC3 rfl (Or.inl rfl)
  exact ⟨h.1, (h.2.1 (fun i _ => rfl)).1⟩

/-! ### Claim C5: schedule() immediate start and timer arming -/

theorem filter_key_add_job_other (timers : List Timer) (k k' : TimerKey) (t : DT)
    (hne : k' ≠ k) :
    (add_job timers k t).filter (fun tm => tm.key == k')
      = timers.filter (fun tm => tm.key == k') := by
  unfold add_job
  rw [List.filter_append]
  have h1 : List.filter (fun tm => tm.key == k') ([⟨k, t⟩] : List Timer) = [] := by
    simp [Ne.symm hne]
  rw [h1, List.append_nil, List.filter_filter]
  apply List.filter_congr
  intro a _
  by_cases ha : a.key = k'
  · simp [ha, hne]
  · simp [ha]

theorem filter_key_add_job_self (timers : List Timer) (k : TimerKey) (t : DT) :
    (add_job timers k t).filter (fun tm => tm.key == k) = [⟨k, t⟩] := by
  unfold add_job
  rw [List.filter_append, List.filter_filter]
  have h1 : timers.filter (fun a => a.key == k && a.key != k) = [] := by
    apply List.filter_eq_nil_iff.mpr
    intro a _
    by_cases ha : a.key = k <;> simp [ha]
  rw [h1, List.nil_append]
  simp

/-- C5 counterexample: with `now = end_time` the current time does not lie
in the half-open interval [start_time, end_time), yet `schedule()` starts
immediately instead of arming timers: the source guard is the closed
`start_time <= now <= end_time`. -/
theorem C5_schedule_counterexample :
    (handle_recording_schedule [] ⟨⟨2025, 10, 12⟩, 300⟩ 1 ⟨⟨2025, 10, 12⟩, 0⟩
        ⟨⟨2025, 10, 12⟩, 300⟩).2 = true ∧
    ¬((DT.toSecs ⟨⟨2025, 10, 12⟩, 0⟩ ≤ DT.toSecs ⟨⟨2025, 10, 12⟩, 300⟩) ∧
      (DT.toSecs ⟨⟨2025, 10, 12⟩, 300⟩ < DT.toSecs ⟨⟨2025, 10, 12⟩, 300⟩)) := by
  exact ⟨by decide, by decide⟩

/-- C5 (amended): `schedule(job)` starts immediately iff now lies in the
CLOSED interval [start_time, end_time], arming no timers in that case;
otherwise a start timer is armed iff start_time > now and a stop timer iff
end_time > now, each keyed per job id, and re-arming replaces any prior
timer with the same key (the filter by that key yields exactly the new
entry). -/
theorem C5_schedule_amended (timers : List Timer) (now : DT) (rid : Nat) (s e : DT) :
    ((handle_recording_schedule timers now rid s e).2 = true ↔
      (s.toSecs ≤ now.toSecs ∧ now.toSecs ≤ e.toSecs)) ∧
    ((handle_recording_schedule timers now rid s e).2 = true →
      (handle_recording_schedule timers now rid s e).1 = timers) ∧
    ((handle_recording_schedule timers now rid s e).2 = false →
      ((handle_recording_schedule timers now rid s e).1.filter
          (fun tm => tm.key == TimerKey.start rid)
        = if now.toSecs < s.toSecs then [⟨.start rid, s⟩]
          else timers.filter (fun tm => tm.key == TimerKey.start rid)) ∧
      ((handle_recording_schedule timers now rid s e).1.filter
          (fun tm => tm.key == TimerKey.stop rid)
        = if now.toSecs < e.toSecs then [⟨.stop rid, e⟩]
          else timers.filter (fun tm => tm.key == TimerKey.stop rid))) := by
  unfold handle_recording_schedule
  by_cases hw : s.toSecs ≤ now.toSecs ∧ now.toSecs ≤ e.toSecs
  · simp [hw]
  · rw [if_neg hw]
    dsimp only
    refine ⟨by simp [hw], by simp, fun _ => ⟨?_, ?_⟩⟩
    · by_cases h2 : now.toSecs < e.toSecs
      · rw [if_pos h2,
          filter_key_add_job_other _ _ _ _ (fun hcon => TimerKey.noConfusion hcon)]
        by_cases h1 : now.toSecs < s.toSecs
        · rw [if_pos h1, if_pos h1, filter_key_add_job_self]
        · rw [if_neg h1, if_neg h1]
      · rw [if_neg h2]
        by_cases h1 : now.toSecs < s.toSecs
        · rw [if_pos h1, if_pos h1, filter_key_add_job_self]
        · rw [if_neg h1, if_neg h1]
    · by_cases h2 : now.toSecs < e.toSecs
      · rw [if_pos h2, if_pos h2, filter_key_add_job_self]
      · rw [if_neg h2, if_neg h2]
        by_cases h1 : now.toSecs < s.toSecs
        · rw [if_pos h1,
            filter_key_add_job_other _ _ _ _ (fun hcon => TimerKey.noConfusion hcon)]
        · rw [if_neg h1]

theorem C5_schedule_amended_witness :
    (handle_recording_schedule [] ⟨⟨2025, 10, 12⟩, 0⟩ 1 ⟨⟨2025, 10, 12⟩, 100⟩
        ⟨⟨2025, 10, 12⟩, 200⟩).1.filter (fun tm => tm.key == TimerKey.start 1)
      = [⟨.start 1, ⟨⟨2025, 10, 12⟩, 100⟩⟩] := by
  have h := C5_schedule_amended [] ⟨⟨2025, 10, 12⟩, 0⟩ 1 ⟨⟨2025, 10, 12⟩, 100⟩
    ⟨⟨2025, 10, 12⟩, 200⟩
  rw [(h.2.2 (by decide)).1, if_pos (by decide)]

/-! ### Preservation lemmas for the completion path -/

theorem create_podcast_episode_parts (db : DB) (r : Rec) :
    (create_podcast_episode db r).recordings = db.recordings ∧
      (create_podcast_episode db r).podcasts = db.podcasts ∧
      (create_podcast_episode db r).nextId = db.nextId := by
  unfold create_podcast_episode
  repeat' split
  all_goals exact ⟨rfl, rfl, rfl⟩

theorem schedule_next_episodes (db : DB) (c : Rec) :
    (schedule_next_recurring_if_needed db c).episodes = db.episodes := by
  unfold schedule_next_recurring_if_needed
  repeat' split
  all_goals rfl

theorem schedule_next_recordings_cases (db : DB) (c : Rec) :
    (schedule_next_recurring_if_needed db c).recordings = db.recordings ∨
      ∃ inst, (schedule_next_recurring_if_needed db c).recordings
        = db.recordings ++ [inst] := by
  unfold schedule_next_recurring_if_needed
  repeat' split
  all_goals first
  | exact Or.inl rfl
  | exact Or.inr ⟨_, rfl⟩

theorem findRec_schedule_next (db : DB) (c : Rec) (rid : Nat) (x : Rec)
    (h : findRec db rid = some x) :
    findRec (schedule_next_recurring_if_needed db c) rid = some x := by
  rcases schedule_next_recordings_cases db c with hc | ⟨inst, hc⟩
  · unfold findRec at h ⊢
    rw [hc]
    exact h
  · unfold findRec at h ⊢
    rw [hc, List.find?_append, h]
    rfl

theorem findRec_completionChain (db : DB) (c : Rec) (rid : Nat) (x : Rec)
    (h : findRec db rid = some x) :
    findRec (completionChain db c) rid = some x := by
  unfold completionChain
  split_ifs with hcond
  · apply findRec_schedule_next
    unfold findRec at h ⊢
    rw [(create_podcast_episode_parts db c).1]
    exact h
  · exact findRec_schedule_next db c rid x h

/-! ### Claim C4: commit-then-notify in the worker completion path -/

/-- C4: on every capture completion the worker's trace is exactly one
store commit of the terminal status, output path and size followed by the
completion-publish attempt, and the committed job record is the same
whether that publish succeeds or fails. -/
theorem C4_commit_then_notify (db : DB) (rid : Nat) (out : String)
    (endt tnow : DT) (exitCode : Int) (fs : String → Option Nat) (w : Rec)
    (hpos : ¬((endt.toSecs : Int) - (tnow.toSecs : Int) ≤ 0))
    (hf : findRec db rid = some w) :
    ∃ st path size,
      (record_stream db rid out endt tnow exitCode fs true).2
        = [.commitCompletion rid st path size, .publishCompleted true] ∧
      (record_stream db rid out endt tnow exitCode fs false).2
        = [.commitCompletion rid st path size, .publishCompleted false] ∧
      (st = "COMPLETE" ∨ st = "PARTIAL" ∨ st = "FAILED") ∧
      findRec (record_stream db rid out endt tnow exitCode fs true).1 rid
        = some { w with status := st, file_path := path, file_size := size } ∧
      findRec (record_stream db rid out endt tnow exitCode fs false).1 rid
        = some { w with status := st, file_path := path, file_size := size } := by
  have hfind : ∀ pubOk : Bool,
      findRec (record_stream db rid out endt tnow exitCode fs pubOk).1 rid
        = some { w with
            status := (if exitCode = 0 ∧ (fs out).isSome then
                (if w.was_interrupted then "PARTIAL" else "COMPLETE", some out,
                  fs out)
              else ("FAILED", w.file_path, w.file_size)).1,
            file_path := (if exitCode = 0 ∧ (fs out).isSome then
                (if w.was_interrupted then "PARTIAL" else "COMPLETE", some out,
                  fs out)
              else ("FAILED", w.file_path, w.file_size)).2.1,
            file_size := (if exitCode = 0 ∧ (fs out).isSome then
                (if w.was_interrupted then "PARTIAL" else "COMPLETE", some out,
                  fs out)
              else ("FAILED", w.file_path, w.file_size)).2.2 } := by
    intro pubOk
    unfold record_stream
    rw [if_neg hpos, hf]
    dsimp only
    apply findRec_completionChain
    rw [findRec_updateRec, hf] <;> first
    | rfl
    | (intro x; rfl)
  have htrace : ∀ pubOk : Bool,
      (record_stream db rid out endt tnow exitCode fs pubOk).2
        = [.commitCompletion rid
            (if exitCode = 0 ∧ (fs out).isSome then
                (if w.was_interrupted then "PARTIAL" else "COMPLETE", some out,
                  fs out)
              else ("FAILED", w.file_path, w.file_size)).1
            (if exitCode = 0 ∧ (fs out).isSome then
                (if w.was_interrupted then "PARTIAL" else "COMPLETE", some out,
                  fs out)
              else ("FAILED", w.file_path, w.file_size)).2.1
            (if exitCode = 0 ∧ (fs out).isSome then
                (if w.was_interrupted then "PARTIAL" else "COMPLETE", some out,
                  fs out)
              else ("FAILED", w.file_path, w.file_size)).2.2,
          .publishCompleted pubOk] := by
    intro pubOk
    unfold record_stream
    rw [if_neg hpos, hf]
  refine ⟨_, _, _, htrace true, htrace false, ?_, hfind true, hfind false⟩
  split_ifs with h1 h2 <;> simp


/-! ### Claim C2: weekly recurrence chaining on completion -/

/-- C2: for a job generated from a weekly recurrence template with a
recurrence bound, after successful completion the chaining path creates
exactly one new non-template job at start_time + 7 days when that time is
within the bound, and creates none once the next occurrence exceeds the
bound. -/
theorem C2_weekly_chaining (db : DB) (c tpl : Rec) (re : DT)
    (hT : db.recordings.find? (fun r =>
        r.name == c.name && r.station_id == c.station_id && r.is_recurring)
      = some tpl)
    (hw : tpl.recurrence_type = "weekly")
    (hre : tpl.recurrence_end = some re)
    (hN : db.recordings.find? (fun r =>
        r.name == tpl.name && r.station_id == tpl.station_id && !r.is_recurring &&
        decide (c.start_time.toSecs < r.start_time.toSecs)) = none) :
    (((c.start_time.addDays 7).toSecs ≤ re.toSecs →
      (schedule_next_recurring_if_needed db c).recordings
        = db.recordings ++ [mkNextRecording tpl (c.start_time.addDays 7) db.nextId] ∧
      (mkNextRecording tpl (c.start_time.addDays 7) db.nextId).start_time
        = c.start_time.addDays 7 ∧
      (mkNextRecording tpl (c.start_time.addDays 7) db.nextId).is_recurring = false)) ∧
    (re.toSecs < (c.start_time.addDays 7).toSecs →
      schedule_next_recurring_if_needed db c = db) := by
  have hcalc : calculate_next_recurrence c.start_time tpl.recurrence_type
      = .ok (c.start_time.addDays 7) := by
    rw [hw]
    rfl
  unfold schedule_next_recurring_if_needed
  rw [hT]
  dsimp only
  rw [hN]
  dsimp only
  rw [hcalc]
  dsimp only
  rw [hre]
  dsimp only
  constructor
  · intro hle
    rw [if_neg (by omega)]
    exact ⟨rfl, rfl, rfl⟩
  · intro hgt
    rw [if_pos hgt]

/-- Weekly template for the C2 witness. -/
def tplC2 : Rec :=
  { id := 1, name := "weeklyshow", station_id := 2, podcast_id := none,
    start_time := ⟨⟨2025, 10, 5⟩, 120⟩, end_time := ⟨⟨2025, 10, 5⟩, 420⟩,
    duration := 300, status := "SCHEDULED", file_path := none, file_size := none,
    format := "mp3", bitrate := 128, is_recurring := true,
    recurrence_type := "weekly", recurrence_end := some ⟨⟨2025, 11, 12⟩, 0⟩,
    save_to_additional_local := false, save_to_nextcloud := false,
    was_interrupted := false }

/-- Completed generated instance for the C2 witness. -/
def cC2 : Rec :=
  { id := 2, name := "weeklyshow", station_id := 2, podcast_id := none,
    start_time := ⟨⟨2025, 10, 12⟩, 120⟩, end_time := ⟨⟨2025, 10, 12⟩, 420⟩,
    duration := 300, status := "COMPLETE", file_path := some "weeklyshow.mp3",
    file_size := some 1000, format := "mp3", bitrate := 128,
    is_recurring := false, recurrence_type := "", recurrence_end := none,
    save_to_additional_local := false, save_to_nextcloud := false,
    was_interrupted := false }

/-- Store for the C2 witness. -/
def dbC2 : DB :=
  { recordings := [tplC2, cC2], stations := [], podcasts := [], episodes := [],
    nextId := 3 }

theorem C2_weekly_chaining_witness :
    (cC2.start_time.addDays 7).toSecs ≤ (DT.toSecs ⟨⟨2025, 11, 12⟩, 0⟩) ∧
    (schedule_next_recurring_if_needed dbC2 cC2).recordings
      = dbC2.recordings ++ [mkNextRecording tplC2 (cC2.start_time.addDays 7) 3] := by
  have h := C2_weekly_chaining dbC2 cC2 tplC2 ⟨⟨2025, 11, 12⟩, 0⟩ rfl rfl rfl rfl
  exact ⟨by decide, (h.1 (by decide)).1⟩

/-! ### Claim C6: startup reconciliation of interrupted jobs -/

/-- C6: every RECORDING job whose end_time lies in the 30-minute lookback
window before now is marked was_interrupted and resolved by
reconciliation: PARTIAL with the on-disk size when the stored output file
exists, FAILED when it does not. -/
theorem C6_reconcile_interrupted (fs : String → Option Nat) (now : DT) (db : DB)
    (r : Rec) (hmem : r ∈ db.recordings)
    (hrec : r.status = "RECORDING")
    (hw1 : r.end_time.toSecs ≤ now.toSecs)
    (hw2 : (now.toSecs : Int) - 1800 ≤ (r.end_time.toSecs : Int)) :
    resolve_interrupted_recording fs r
        ∈ (check_active_recordings_resolve fs now db).recordings ∧
    (resolve_interrupted_recording fs r).was_interrupted = true ∧
    (∀ p sz, r.file_path = some p → fs p = some sz →
      (resolve_interrupted_recording fs r).status = "PARTIAL" ∧
      (resolve_interrupted_recording fs r).file_size = some sz) ∧
    (∀ p, r.file_path = some p → fs p = none →
      (resolve_interrupted_recording fs r).status = "FAILED") ∧
    (r.file_path = none →
      (resolve_interrupted_recording fs r).status = "FAILED") := by
  have hcond : interruptedWindow now r := ⟨hrec, hw1, hw2⟩
  refine ⟨?_, ?_, ?_, ?_, ?_⟩
  · have hm := List.mem_map_of_mem
      (fun x => if interruptedWindow now x then resolve_interrupted_recording fs x else x)
      hmem
    unfold check_active_recordings_resolve
    dsimp only
    simpa [hcond] using hm
  · rcases hp : r.file_path with _ | p
    · simp [resolve_interrupted_recording, hp]
    · rcases hfs : fs p with _ | sz <;>
        simp [resolve_interrupted_recording, hp, hfs]
  · intro p sz hp hfs
    simp [resolve_interrupted_recording, hp, hfs]
  · intro p hp hfs
    simp [resolve_interrupted_recording, hp, hfs]
  · intro hp
    simp [resolve_interrupted_recording, hp]

/-- Job stuck in RECORDING for the C6 witness: its end_time lies 600
seconds before now and its output file exists with 4242 bytes. -/
def recC6 : Rec :=
  { id := 7, name := "stuck", station_id := 1, podcast_id := none,
    start_time := ⟨⟨2025, 10, 12⟩, 36000⟩, end_time := ⟨⟨2025, 10, 12⟩, 39000⟩,
    duration := 3000, status := "RECORDING", file_path := some "stuck.mp3",
    file_size := none, format := "mp3", bitrate := 128, is_recurring := false,
    recurrence_type := "", recurrence_end := none,
    save_to_additional_local := false, save_to_nextcloud := false,
    was_interrupted := false }

/-- Store for the C6 witness. -/
def dbC6 : DB :=
  { recordings := [recC6], stations := [], podcasts := [], episodes := [],
    nextId := 8 }

theorem C6_reconcile_interrupted_witness :
    (resolve_interrupted_recording (fun _ => some 4242) recC6).was_interrupted = true ∧
    (resolve_interrupted_recording (fun _ => some 4242) recC6).status = "PARTIAL" ∧
    (resolve_interrupted_recording (fun _ => some 4242) recC6).file_size = some 4242 := by
  have h := C6_reconcile_interrupted (fun _ => some 4242) ⟨⟨2025, 10, 12⟩, 39600⟩
    dbC6 recC6 (by simp [dbC6]) rfl (by decide) (by decide)
  have h2 := h.2.2.1 "stuck.mp3" 4242 rfl rfl
  exact ⟨h.2.1, h2.1, h2.2⟩

/-! ### Claim C9: idempotence of the completion handler -/

theorem create_podcast_episode_insert (db : DB) (r : Rec) (pid : Nat) (pod : PodcastR)
    (hpid : r.podcast_id = some pid)
    (hpod : db.podcasts.find? (fun p => p.id == pid) = some pod)
    (hep : db.episodes.find? (fun e => e.recording_id == r.id) = none) :
    create_podcast_episode db r
      = { db with episodes :=
            db.episodes ++ [⟨pid, r.id, r.name, episodeDescription r⟩] } := by
  unfold create_podcast_episode
  rw [hpid]
  dsimp only
  rw [hpod]
  dsimp only
  rw [hep]

theorem create_podcast_episode_noop_some (db : DB) (r : Rec) (ep : EpisodeR)
    (h : db.episodes.find? (fun e => e.recording_id == r.id) = some ep) :
    create_podcast_episode db r = db := by
  unfold create_podcast_episode
  cases hp : r.podcast_id with
  | none => rfl
  | some pid =>
    dsimp only
    cases hq : db.podcasts.find? (fun p => p.id == pid) with
    | none => rfl
    | some pod =>
      dsimp only
      rw [h]

theorem schedule_next_no_template (db : DB) (c : Rec)
    (h1 : db.recordings.find? (fun r =>
        r.name == c.name && r.station_id == c.station_id && r.is_recurring) = none) :
    schedule_next_recurring_if_needed db c = db := by
  unfold schedule_next_recurring_if_needed
  rw [h1]

theorem schedule_next_existing (db : DB) (c tpl x : Rec)
    (h1 : db.recordings.find? (fun r =>
        r.name == c.name && r.station_id == c.station_id && r.is_recurring) = some tpl)
    (h2 : db.recordings.find? (fun r =>
        r.name == tpl.name && r.station_id == tpl.station_id && !r.is_recurring &&
        decide (c.start_time.toSecs < r.start_time.toSecs)) = some x) :
    schedule_next_recurring_if_needed db c = db := by
  unfold schedule_next_recurring_if_needed
  rw [h1]
  dsimp only
  rw [h2]

theorem schedule_next_calc_error (db : DB) (c tpl : Rec) (msg : String)
    (h1 : db.recordings.find? (fun r =>
        r.name == c.name && r.station_id == c.station_id && r.is_recurring) = some tpl)
    (h2 : db.recordings.find? (fun r =>
        r.name == tpl.name && r.station_id == tpl.station_id && !r.is_recurring &&
        decide (c.start_time.toSecs < r.start_time.toSecs)) = none)
    (h3 : calculate_next_recurrence c.start_time tpl.recurrence_type = .error msg) :
    schedule_next_recurring_if_needed db c = db := by
  unfold schedule_next_recurring_if_needed
  rw [h1]
  dsimp only
  rw [h2]
  dsimp only
  rw [h3]

theorem schedule_next_skip_end (db : DB) (c tpl : Rec) (next_time re : DT)
    (h1 : db.recordings.find? (fun r =>
        r.name == c.name && r.station_id == c.station_id && r.is_recurring) = some tpl)
    (h2 : db.recordings.find? (fun r =>
        r.name == tpl.name && r.station_id == tpl.station_id && !r.is_recurring &&
        decide (c.start_time.toSecs < r.start_time.toSecs)) = none)
    (h3 : calculate_next_recurrence c.start_time tpl.recurrence_type = .ok next_time)
    (hre : tpl.recurrence_end = some re)
    (h5 : re.toSecs < next_time.toSecs) :
    schedule_next_recurring_if_needed db c = db := by
  unfold schedule_next_recurring_if_needed
  rw [h1]
  dsimp only
  rw [h2]
  dsimp only
  rw [h3]
  dsimp only
  rw [hre]
  dsimp only
  rw [if_pos h5]

theorem schedule_next_insert (db : DB) (c tpl : Rec) (next_time : DT)
    (h1 : db.recordings.find? (fun r =>
        r.name == c.name && r.station_id == c.station_id && r.is_recurring) = some tpl)
    (h2 : db.recordings.find? (fun r =>
        r.name == tpl.name && r.station_id == tpl.station_id && !r.is_recurring &&
        decide (c.start_time.toSecs < r.start_time.toSecs)) = none)
    (h3 : calculate_next_recurrence c.start_time tpl.recurrence_type = .ok next_time)
    (h4 : ∀ re, tpl.recurrence_end = some re → ¬(re.toSecs < next_time.toSecs)) :
    schedule_next_recurring_if_needed db c
      = { db with
          recordings := db.recordings ++ [mkNextRecording tpl next_time db.nextId]
          nextId := db.nextId + 1 } := by
  unfold schedule_next_recurring_if_needed
  rw [h1]
  dsimp only
  rw [h2]
  dsimp only
  rw [h3]
  dsimp only
  cases hre : tpl.recurrence_end with
  | none => rfl
  | some re =>
    dsimp only
    rw [if_neg (h4 re hre)]

theorem schedule_next_after_insert (db : DB) (c tpl : Rec) (next_time : DT)
    (h1 : db.recordings.find? (fun r =>
        r.name == c.name && r.station_id == c.station_id && r.is_recurring) = some tpl)
    (h2 : db.recordings.find? (fun r =>
        r.name == tpl.name && r.station_id == tpl.station_id && !r.is_recurring &&
        decide (c.start_time.toSecs < r.start_time.toSecs)) = none)
    (hlt : c.start_time.toSecs < next_time.toSecs) :
    schedule_next_recurring_if_needed
        { db with
          recordings := db.recordings ++ [mkNextRecording tpl next_time db.nextId]
          nextId := db.nextId + 1 } c
      = { db with
          recordings := db.recordings ++ [mkNextRecording tpl next_time db.nextId]
          nextId := db.nextId + 1 } := by
  have hfind : List.find? (fun r =>
      r.name == tpl.name && r.station_id == tpl.station_id && !r.is_recurring &&
        decide (c.start_time.toSecs < r.start_time.toSecs))
      [mkNextRecording tpl next_time db.nextId]
      = some (mkNextRecording tpl next_time db.nextId) := by
    simp [List.find?, mkNextRecording, hlt]
  unfold schedule_next_recurring_if_needed
  dsimp only
  rw [List.find?_append, h1]
  dsimp only [Option.or]
  rw [List.find?_append, h2]
  dsimp only [Option.or]
  rw [hfind]

theorem schedule_next_twice_length (db : DB) (c : Rec)
    (hv : c.start_time.date.Valid) :
    (schedule_next_recurring_if_needed
        (schedule_next_recurring_if_needed db c) c).recordings.length
      ≤ db.recordings.length + 1 := by
  cases h1 : db.recordings.find? (fun r =>
      r.name == c.name && r.station_id == c.station_id && r.is_recurring) with
  | none =>
    rw [schedule_next_no_template db c h1, schedule_next_no_template db c h1]
    omega
  | some tpl =>
    cases h2 : db.recordings.find? (fun r =>
        r.name == tpl.name && r.station_id == tpl.station_id && !r.is_recurring &&
        decide (c.start_time.toSecs < r.start_time.toSecs)) with
    | some x =>
      rw [schedule_next_existing db c tpl x h1 h2,
        schedule_next_existing db c tpl x h1 h2]
      omega
    | none =>
      cases h3 : calculate_next_recurrence c.start_time tpl.recurrence_type with
      | error msg =>
        rw [schedule_next_calc_error db c tpl msg h1 h2 h3,
          schedule_next_calc_error db c tpl msg h1 h2 h3]
        omega
      | ok next_time =>
        have hlt : c.start_time.toSecs < next_time.toSecs :=
          calculate_next_recurrence_lt c.start_time tpl.recurrence_type next_time hv h3
        cases hre : tpl.recurrence_end with
        | some re =>
          by_cases h5 : re.toSecs < next_time.toSecs
          · rw [schedule_next_skip_end db c tpl next_time re h1 h2 h3 hre h5,
              schedule_next_skip_end db c tpl next_time re h1 h2 h3 hre h5]
            omega
          · rw [schedule_next_insert db c tpl next_time h1 h2 h3
                (fun re2 hre2 => by rw [hre] at hre2; cases hre2; exact h5),
              schedule_next_after_insert db c tpl next_time h1 h2 hlt]
            simp
        | none =>
          rw [schedule_next_insert db c tpl next_time h1 h2 h3
              (fun re2 hre2 => by rw [hre] at hre2; cases hre2),
            schedule_next_after_insert db c tpl next_time h1 h2 hlt]
          simp

/-- C9: running the completion handler (episode creation plus recurrence
chaining) twice for the same job id yields exactly one episode keyed by
that job id (the second run is a no-op) and inserts at most one generated
recurrence instance. -/
theorem C9_completion_idempotent (db : DB) (r : Rec) (pid : Nat) (pod : PodcastR)
    (hv : r.start_time.date.Valid)
    (hpid : r.podcast_id = some pid)
    (hpod : db.podcasts.find? (fun p => p.id == pid) = some pod)
    (hst : r.status = "COMPLETE" ∨ r.status = "PARTIAL")
    (hep : db.episodes.filter (fun e => e.recording_id == r.id) = []) :
    ((completionChain (completionChain db r) r).episodes.filter
        (fun e => e.recording_id == r.id)).length = 1 ∧
    (completionChain (completionChain db r) r).recordings.length
      ≤ db.recordings.length + 1 := by
  have hpidSome : r.podcast_id.isSome = true := by rw [hpid]; rfl
  have hcond : r.podcast_id.isSome = true ∧
      (r.status = "COMPLETE" ∨ r.status = "PARTIAL") := ⟨hpidSome, hst⟩
  have hefind : db.episodes.find? (fun e => e.recording_id == r.id) = none :=
    List.find?_eq_none.mpr (fun x hx => by
      have := List.filter_eq_nil_iff.mp hep x hx
      simpa using this)
  have hc1 := create_podcast_episode_insert db r pid pod hpid hpod hefind
  set ep : EpisodeR := ⟨pid, r.id, r.name, episodeDescription r⟩ with hep_def
  set db1 : DB := { db with episodes := db.episodes ++ [ep] } with hdb1
  have hchain1 : completionChain db r = schedule_next_recurring_if_needed db1 r := by
    unfold completionChain
    rw [if_pos hcond, hc1]
  have heps1 : (schedule_next_recurring_if_needed db1 r).episodes
      = db.episodes ++ [ep] := by
    rw [schedule_next_episodes]
  have heppred : (ep.recording_id == r.id) = true := by simp [hep_def]
  have hefind2 : (schedule_next_recurring_if_needed db1 r).episodes.find?
      (fun e => e.recording_id == r.id) = some ep := by
    rw [heps1, List.find?_append, hefind]
    dsimp only [Option.or]
    simp [List.find?, heppred]
  have hc2 : create_podcast_episode (schedule_next_recurring_if_needed db1 r) r
      = schedule_next_recurring_if_needed db1 r :=
    create_podcast_episode_noop_some _ r ep hefind2
  have hchain2 : completionChain (completionChain db r) r
      = schedule_next_recurring_if_needed (schedule_next_recurring_if_needed db1 r) r := by
    rw [hchain1]
    unfold completionChain
    rw [if_pos hcond, hc2]
  constructor
  · rw [hchain2, schedule_next_episodes, heps1, List.filter_append, hep,
      List.nil_append]
    simp [heppred]
  · rw [hchain2]
    exact schedule_next_twice_length db1 r hv

/-- Podcast row for the C9 witness. -/
def podC9 : PodcastR := { id := 1, title := "pod" }

/-- Completed job with a podcast reference for the C9 witness. -/
def recC9 : Rec :=
  { id := 3, name := "epshow", station_id := 2, podcast_id := some 1,
    start_time := ⟨⟨2025, 10, 12⟩, 3600⟩, end_time := ⟨⟨2025, 10, 12⟩, 7200⟩,
    duration := 3600, status := "COMPLETE", file_path := some "e.mp3",
    file_size := some 5, format := "mp3", bitrate := 128, is_recurring := false,
    recurrence_type := "", recurrence_end := none,
    save_to_additional_local := false, save_to_nextcloud := false,
    was_interrupted := false }

/-- Store for the C9 witness. -/
def dbC9 : DB :=
  { recordings := [recC9], stations := [], podcasts := [podC9], episodes := [],
    nextId := 4 }

theorem C9_completion_idempotent_witness :
    ((completionChain (completionChain dbC9 recC9) recC9).episodes.filter
        (fun e => e.recording_id == recC9.id)).length = 1 ∧
    (completionChain (completionChain dbC9 recC9) recC9).recordings.length
      ≤ dbC9.recordings.length + 1 :=
  C9_completion_idempotent dbC9 recC9 1 podC9 (by decide) rfl rfl (Or.inl rfl) rfl

/-! ### Claim C10: a null stored file_path always resolves to FAILED -/

/-- C10: a RECORDING job in the lookback window whose stored `file_path`
is null is resolved to FAILED by reconciliation, never to PARTIAL,
whatever the filesystem contains; and the worker persists `file_path`
only in the successful-completion branch, so a failed capture leaves the
stored `file_path` unchanged (null for a job that never completed). -/
theorem C10_null_path_always_failed (fs : String → Option Nat) (now : DT)
    (db : DB) (r : Rec) (db2 : DB) (rid : Nat) (out : String) (endt tnow : DT)
    (exitCode : Int) (fs2 : String → Option Nat) (pubOk : Bool) (w : Rec)
    (hmem : r ∈ db.recordings) (hrec : r.status = "RECORDING")
    (hw1 : r.end_time.toSecs ≤ now.toSecs)
    (hw2 : (now.toSecs : Int) - 1800 ≤ (r.end_time.toSecs : Int))
    (hnull : r.file_path = none)
    (hpos : ¬((endt.toSecs : Int) - (tnow.toSecs : Int) ≤ 0))
    (hf : findRec db2 rid = some w)
    (hfail : ¬(exitCode = 0 ∧ (fs2 out).isSome = true)) :
    resolve_interrupted_recording fs r
        ∈ (check_active_recordings_resolve fs now db).recordings ∧
    (resolve_interrupted_recording fs r).status = "FAILED" ∧
    (resolve_interrupted_recording fs r).status ≠ "PARTIAL" ∧
    findRec (record_stream db2 rid out endt tnow exitCode fs2 pubOk).1 rid
      = some { w with status := "FAILED" } ∧
    ({ w with status := "FAILED" } : Rec).file_path = w.file_path := by
  have hcond : interruptedWindow now r := ⟨hrec, hw1, hw2⟩
  refine ⟨?_, ?_, ?_, ?_, rfl⟩
  · have hm := List.mem_map_of_mem
      (fun x => if interruptedWindow now x then resolve_interrupted_recording fs x else x)
      hmem
    unfold check_active_recordings_resolve
    dsimp only
    simpa [hcond] using hm
  · simp [resolve_interrupted_recording, hnull]
  · simp [resolve_interrupted_recording, hnull]
  · unfold record_stream
    rw [if_neg hpos, hf]
    dsimp only
    rw [if_neg hfail]
    apply findRec_completionChain
    rw [findRec_updateRec, hf] <;> first
    | rfl
    | (intro x; rfl)

/-- RECORDING job with a null stored path for the C10 witness. -/
def recC10 : Rec :=
  { id := 9, name := "crashed", station_id := 1, podcast_id := none,
    start_time := ⟨⟨2025, 10, 12⟩, 36000⟩, end_time := ⟨⟨2025, 10, 12⟩, 39000⟩,
    duration := 3000, status := "RECORDING", file_path := none,
    file_size := none, format := "mp3", bitrate := 128, is_recurring := false,
    recurrence_type := "", recurrence_end := none,
    save_to_additional_local := false, save_to_nextcloud := false,
    was_interrupted := false }

/-- Store for the C10 witness. -/
def dbC10 : DB :=
  { recordings := [recC10], stations := [], podcasts := [], episodes := [],
    nextId := 10 }

theorem C10_null_path_always_failed_witness :
    (resolve_interrupted_recording (fun _ => some 4242) recC10).status = "FAILED" ∧
    findRec (record_stream dbC10 9 "crashed.mp3" ⟨⟨2025, 10, 12⟩, 39000⟩
        ⟨⟨2025, 10, 12⟩, 36000⟩ 1 (fun _ => some 4242) true).1 9
      = some { recC10 with status := "FAILED" } := by
  have h := C10_null_path_always_failed (fun _ => some 4242)
    ⟨⟨2025, 10, 12⟩, 39600⟩ dbC10 recC10 dbC10 9 "crashed.mp3"
    ⟨⟨2025, 10, 12⟩, 39000⟩ ⟨⟨2025, 10, 12⟩, 36000⟩ 1 (fun _ => some 4242) true
    recC10 (by simp [dbC10]) rfl (by decide) (by decide) rfl (by decide) rfl
    (by simp)
  exact ⟨h.2.1, h.2.2.2.1⟩

/-! ### Claim C1: failures on the worker start path strand RECORDING -/

/-- RECORDING job whose station row is absent, for C1. -/
def recC1 : Rec :=
  { id := 1, name := "orphan", station_id := 5, podcast_id := none,
    start_time := ⟨⟨2025, 10, 12⟩, 0⟩, end_time := ⟨⟨2025, 10, 12⟩, 600⟩,
    duration := 600, status := "RECORDING", file_path := none,
    file_size := none, format := "mp3", bitrate := 128, is_recurring := false,
    recurrence_type := "", recurrence_end := none,
    save_to_additional_local := false, save_to_nextcloud := false,
    was_interrupted := false }

/-- Store for C1: the job is RECORDING but its station does not exist. -/
def dbC1 : DB :=
  { recordings := [recC1], stations := [], podcasts := [], episodes := [],
    nextId := 2 }

/-- Start command for C1 naming the missing station. -/
def msgC1 : StartMsg :=
  { recording_id := 1, station_id := 5, name := "orphan", format := "mp3",
    bitrate := 128, end_time := ⟨⟨2025, 10, 12⟩, 600⟩ }

/-- C1 (code versus claim): with RECORDING already persisted, the worker
start path aborts on a missing/invalid station without persisting FAILED
and launches no capture, and `record_stream` with remaining duration <= 0
returns without persisting FAILED — in both cases the stored status stays
RECORDING with no capture running, where the claim requires FAILED. -/
theorem C1_start_path_strands_recording :
    handle_recording_start dbC1 [] msgC1 = (dbC1, [], false) ∧
    recStatus dbC1 1 = some "RECORDING" ∧
    record_stream dbC1 1 "orphan.mp3" ⟨⟨2025, 10, 12⟩, 600⟩
        ⟨⟨2025, 10, 12⟩, 600⟩ 0 (fun _ => none) true = (dbC1, []) ∧
    recStatus (record_stream dbC1 1 "orphan.mp3" ⟨⟨2025, 10, 12⟩, 600⟩
        ⟨⟨2025, 10, 12⟩, 600⟩ 0 (fun _ => none) true).1 1 = some "RECORDING" := by
  refine ⟨?_, rfl, ?_, ?_⟩ <;> decide

/-- Job being captured for the C4 witness. -/
def recC4 : Rec :=
  { id := 4, name := "c4show", station_id := 1, podcast_id := none,
    start_time := ⟨⟨2025, 10, 12⟩, 0⟩, end_time := ⟨⟨2025, 10, 12⟩, 600⟩,
    duration := 600, status := "RECORDING", file_path := none,
    file_size := none, format := "mp3", bitrate := 128, is_recurring := false,
    recurrence_type := "", recurrence_end := none,
    save_to_additional_local := false, save_to_nextcloud := false,
    was_interrupted := false }

/-- Store for the C4 witness. -/
def dbC4 : DB :=
  { recordings := [recC4], stations := [], podcasts := [], episodes := [],
    nextId := 5 }

theorem C4_commit_then_notify_witness :
    ∃ st path size,
      (record_stream dbC4 4 "c4.mp3" ⟨⟨2025, 10, 12⟩, 600⟩ ⟨⟨2025, 10, 12⟩, 0⟩
          0 (fun _ => some 1000) true).2
        = [.commitCompletion 4 st path size, .publishCompleted true] ∧
      (record_stream dbC4 4 "c4.mp3" ⟨⟨2025, 10, 12⟩, 600⟩ ⟨⟨2025, 10, 12⟩, 0⟩
          0 (fun _ => some 1000) false).2
        = [.commitCompletion 4 st path size, .publishCompleted false] ∧
      (st = "COMPLETE" ∨ st = "PARTIAL" ∨ st = "FAILED") ∧
      findRec (record_stream dbC4 4 "c4.mp3" ⟨⟨2025, 10, 12⟩, 600⟩
          ⟨⟨2025, 10, 12⟩, 0⟩ 0 (fun _ => some 1000) true).1 4
        = some { recC4 with status := st, file_path := path, file_size := size } ∧
      findRec (record_stream dbC4 4 "c4.mp3" ⟨⟨2025, 10, 12⟩, 600⟩
          ⟨⟨2025, 10, 12⟩, 0⟩ 0 (fun _ => some 1000) false).1 4
        = some { recC4 with status := st, file_path := path, file_size := size } :=
  C4_commit_then_notify dbC4 4 "c4.mp3" ⟨⟨2025, 10, 12⟩, 600⟩ ⟨⟨2025, 10, 12⟩, 0⟩
    0 (fun _ => some 1000) recC4 (by decide) rfl
